import Mathlib

/-!
Shallow embedding of datahugger's `base.py` (class `DatasetDownloader` and its
helpers).  JSON documents are modelled by `JValue`, Python `None` by `Option`,
raised exceptions by `Except PyErr`, the network by an oracle function, and the
local file system by an association list of path/content pairs.
-/

namespace Datahugger

/-- A JSON document: the tree of maps, sequences and scalars that a repository
API returns.  Integers stand in for JSON numbers. -/
inductive JValue where
  | null
  | bool (b : Bool)
  | num (n : Int)
  | str (s : String)
  | arr (items : List JValue)
  | obj (fields : List (String × JValue))

/-- Python exceptions that the embedded code can raise. -/
inductive PyErr where
  | parseFailure
  | indexErr
  | typeErr
  | attrErr
  | valueErr
  | httpErr
  | connectionErr
  | jsonDecodeErr
  | recursionErr
  | badZip
  | ioErr
  deriving DecidableEq, Repr

/-- A JSON `null` extracted by jsonpath becomes Python `None`; other values are
themselves. -/
def pyOpt : JValue → Option JValue
  | .null => none
  | v => some v

/-- Python equality test `v == s` between a possibly absent value and a string
literal: true exactly when the value is that string. -/
def isStrVal : Option JValue → String → Bool
  | some (.str t), s => t == s
  | _, _ => false

/-- Python truthiness of a JSON value (used for `if next_url:`). -/
def truthy : JValue → Bool
  | .null => false
  | .bool b => b
  | .num n => !(n == 0)
  | .str s => !(s == "")
  | .arr l => !l.isEmpty
  | .obj l => !l.isEmpty

/-- Concatenation of the lists produced for each element (used by the jsonpath
evaluator). -/
def jconcat (f : α → List β) : List α → List β
  | [] => []
  | x :: xs => f x ++ jconcat f xs

/-- First value bound to a key in a JSON object. -/
def lookupKey (kvs : List (String × JValue)) (k : String) : Option JValue :=
  match kvs with
  | [] => none
  | kv :: rest => if kv.1 == k then some kv.2 else lookupKey rest k

/-- Abstract syntax of the jsonpath expressions the descriptors use: the root,
field access, array indexing and wildcards. -/
inductive PathExpr where
  | root
  | field (p : PathExpr) (name : String)
  | index (p : PathExpr) (i : Nat)
  | wild (p : PathExpr)

/-- Jsonpath evaluation: the list of values an expression matches in a
document (`jsonpath_expression.find`). -/
def findPath : PathExpr → JValue → List JValue
  | .root, v => [v]
  | .field p n, v =>
      jconcat
        (fun x =>
          match x with
          | .obj kvs =>
              match lookupKey kvs n with
              | some v2 => [v2]
              | none => []
          | _ => [])
        (findPath p v)
  | .index p i, v =>
      jconcat
        (fun x =>
          match x with
          | .arr l =>
              match l.get? i with
              | some v2 => [v2]
              | none => []
          | _ => [])
        (findPath p v)
  | .wild p, v =>
      jconcat
        (fun x =>
          match x with
          | .arr l => l
          | .obj kvs => kvs.map (fun kv => kv.2)
          | _ => [])
        (findPath p v)

/-- Character class for jsonpath field names. -/
def isNameChar (c : Char) : Bool :=
  c.isAlphanum || c == '_'

/-- Numeric value of a digit list. -/
def digitsToNat (ds : List Char) : Nat :=
  ds.foldl (fun n c => n * 10 + (c.toNat - 48)) 0

/-- Selector loop of the jsonpath reader, with fuel bounded by the remaining
input length.  A malformed expression yields an error, as `jsonpath_ng.parse`
raises on bad input. -/
def parseSelsAux : Nat → List Char → PathExpr → Except String PathExpr
  | _, [], acc => .ok acc
  | 0, _ :: _, _ => .error "out of fuel"
  | fuel + 1, '.' :: rest, acc =>
      let nm := rest.takeWhile isNameChar
      if nm.isEmpty then .error "empty field name"
      else parseSelsAux fuel (rest.dropWhile isNameChar) (.field acc (String.mk nm))
  | fuel + 1, '[' :: '*' :: ']' :: rest, acc => parseSelsAux fuel rest (.wild acc)
  | fuel + 1, '[' :: rest, acc =>
      let ds := rest.takeWhile Char.isDigit
      (match rest.dropWhile Char.isDigit with
       | ']' :: rest2 =>
           if ds.isEmpty then .error "bad index"
           else parseSelsAux fuel rest2 (.index acc (digitsToNat ds))
       | _ => .error "unclosed bracket")
  | _ + 1, _ :: _, _ => .error "unexpected character"

/-- Reading a jsonpath string (`jsonpath_ng.ext.parse`): a root marker followed
by field, index and wildcard selectors. -/
def parseJsonPath (s : String) : Except String PathExpr :=
  match s.toList with
  | '$' :: rest => parseSelsAux rest.length rest .root
  | _ => .error "expression must start at the root"

/-- Body of the `try` block of `_get_attr_attr`: read the expression (raises on
malformed input), evaluate it, and take match number zero (raises `IndexError`
when there is none). -/
def getAttrAttrRaw (record : JValue) (jsonp : String) : Except PyErr JValue :=
  match parseJsonPath jsonp with
  | .error _ => .error .parseFailure
  | .ok e =>
      match findPath e record with
      | [] => .error .indexErr
      | v :: _ => .ok v

/-- The method `_get_attr_attr`: any exception from the body is caught and
turned into `None`. -/
def getAttrAttr (record : JValue) (jsonp : String) : Option JValue :=
  match getAttrAttrRaw record jsonp with
  | .error _ => none
  | .ok v => pyOpt v

/-- Boolean test that one character list starts with another. -/
def listStarts : List Char → List Char → Bool
  | [], _ => true
  | _ :: _, [] => false
  | a :: as, b :: bs => a == b && listStarts as bs

/-- Whether `s` starts with `t`. -/
def strStarts (s t : String) : Bool :=
  listStarts t.toList s.toList

/-- Whether `s` ends with `t` (Python `str.endswith`). -/
def strEnds (s t : String) : Bool :=
  listStarts t.toList.reverse s.toList.reverse

/-- The final path segment of a name (`os.path.basename`). -/
def basename (s : String) : String :=
  String.mk ((s.toList.reverse.takeWhile (fun c => !(c == '/'))).reverse)

/-- Everything before the final path segment (`os.path.dirname`). -/
def dirname (s : String) : String :=
  String.mk (((s.toList.reverse.dropWhile (fun c => !(c == '/'))).drop 1).reverse)

/-- Joining two path components as `pathlib.Path`/`os.path.join` do: an
absolute or empty second component short-circuits, otherwise the parts are
separated by a slash. -/
def pathJoin (a b : String) : String :=
  if b == "" then a
  else if strStarts b "/" then b
  else if strEnds a "/" then a ++ b
  else a ++ "/" ++ b

/-- Whether an association list (a Python `dict`) binds a key. -/
def dictContains (d : List (String × α)) (k : String) : Bool :=
  match d with
  | [] => false
  | kv :: rest => kv.1 == k || dictContains rest k

/-- Value bound to a key in a Python `dict`. -/
def dictGet (d : List (String × α)) (k : String) : Option α :=
  match d with
  | [] => none
  | kv :: rest => if kv.1 == k then some kv.2 else dictGet rest k

/-- In-place replacement of one binding (the update path of `dict`
assignment). -/
def replBind (k : String) (v : α) (kv : String × α) : String × α :=
  if kv.1 == k then (k, v) else kv

/-- Binding a key in a Python `dict`: replace in place when present, append
otherwise. -/
def dictInsert (d : List (String × α)) (k : String) (v : α) : List (String × α) :=
  if dictContains d k then d.map (replBind k v)
  else d ++ [(k, v)]

/-- Python `dict.update`: fold the bindings of `u` into `d`. -/
def dictUpdate (d u : List (String × α)) : List (String × α) :=
  u.foldl (fun acc kv => dictInsert acc kv.1 kv.2) d

/-- The first option when present, the second otherwise. -/
def orGet (a b : Option α) : Option α :=
  match a with
  | some v => some v
  | none => b

/-- Caller-supplied parameters and URL-derived parameters are string-keyed
string maps. -/
abbrev ParamsDict : Type := List (String × String)

/-- The per-repository configuration: the subclass attributes
`META_FILES_JSONPATH`, `ATTR_NAME_JSONPATH`, `ATTR_FOLDER_LINK_JSONPATH`,
`ATTR_FILE_LINK_JSONPATH`, `ATTR_SIZE_JSONPATH`, `ATTR_HASH_JSONPATH`,
`ATTR_HASH_TYPE_JSONPATH`, `ATTR_HASH_TYPE_VALUE`, `ATTR_KIND_JSONPATH` and
`PAGINATION_JSONPATH`; `none` models an attribute the subclass does not
declare (`hasattr` false). -/
structure Descriptor where
  metaFilesPath : Option String := none
  namePath : Option String := none
  folderLinkPath : Option String := none
  fileLinkPath : Option String := none
  sizePath : Option String := none
  hashPath : Option String := none
  hashTypePath : Option String := none
  hashTypeValue : Option JValue := none
  kindPath : Option String := none
  paginationPath : Option String := none

/-- The method `_get_attr_name`. -/
def getAttrName (d : Descriptor) (r : JValue) : Option JValue :=
  match d.namePath with
  | none => none
  | some p => getAttrAttr r p

/-- The method `_get_attr_size`. -/
def getAttrSize (d : Descriptor) (r : JValue) : Option JValue :=
  match d.sizePath with
  | none => none
  | some p => getAttrAttr r p

/-- The method `_get_attr_hash`. -/
def getAttrHash (d : Descriptor) (r : JValue) : Option JValue :=
  match d.hashPath with
  | none => none
  | some p => getAttrAttr r p

/-- The method `_get_attr_hash_type`: a constant subclass value wins over the
path expression. -/
def getAttrHashType (d : Descriptor) (r : JValue) : Option JValue :=
  match d.hashTypeValue with
  | some v => some v
  | none =>
      match d.hashTypePath with
      | none => none
      | some p => getAttrAttr r p

/-- The method `_get_attr_kind`: defaults to the string `file` when the
descriptor declares no kind path. -/
def getAttrKind (d : Descriptor) (r : JValue) : Option JValue :=
  match d.kindPath with
  | none => some (.str "file")
  | some p => getAttrAttr r p

/-- The method `_get_attr_link`: the folder link for folder records, the file
link otherwise. -/
def getAttrLink (d : Descriptor) (r : JValue) : Option JValue :=
  if isStrVal (getAttrKind d r) "folder" then
    match d.folderLinkPath with
    | none => none
    | some p => getAttrAttr r p
  else
    match d.fileLinkPath with
    | none => none
    | some p => getAttrAttr r p

/-- One entry of the flat file list built by `_get_files_recursive` (the dict
with keys `link`, `name`, `size`, `hash` and `hash_type`). -/
structure FileEntry where
  link : Option JValue
  name : Option JValue
  size : Option JValue
  hash : Option JValue
  hash_type : Option JValue

/-- One HTTP response: a status code, the parsed JSON body when the payload is
JSON, and the raw payload bytes. -/
structure HttpResp where
  status : Nat
  bodyJson : Option JValue
  content : String

/-- The remote side: what `requests.get` returns for each URL, `none` being a
connection-level failure. -/
abbrev Net : Type := String → Option HttpResp

/-- Python `requests.get` on a value that may not even be a string (a missing
link is `None`, and `requests` raises on it). -/
def httpGet (net : Net) (url : Option JValue) : Except PyErr HttpResp :=
  match url with
  | some (.str s) =>
      match net s with
      | none => .error .connectionErr
      | some r => .ok r
  | _ => .error .connectionErr

/-- The method `Response.raise_for_status`. -/
def raiseForStatus (r : HttpResp) : Except PyErr Unit :=
  if 400 ≤ r.status then .error .httpErr else .ok ()

/-- The method `Response.json`, which raises when the payload is not JSON. -/
def respJson (r : HttpResp) : Except PyErr JValue :=
  match r.bodyJson with
  | none => .error .jsonDecodeErr
  | some v => .ok v

/-- Python iteration over a JSON value (`for f in files_raw` when no
records-root path is declared): lists give elements, maps give their keys,
strings give characters, scalars raise `TypeError`. -/
def toIter : JValue → Except PyErr (List JValue)
  | .arr l => .ok l
  | .obj kvs => .ok (kvs.map (fun kv => JValue.str kv.1))
  | .str s => .ok (s.toList.map (fun c => JValue.str (String.mk [c])))
  | _ => .error .typeErr

/-- Locating the record array in a page (`files_raw`): evaluate the declared
records-root path (a malformed path raises, it is not inside a `try`), or
iterate the whole response when none is declared. -/
def extractRecords (d : Descriptor) (response : JValue) : Except PyErr (List JValue) :=
  match d.metaFilesPath with
  | some jp =>
      match parseJsonPath jp with
      | .error _ => .error .parseFailure
      | .ok e => .ok (findPath e response)
  | none => toIter response

/-- The name computation `str(Path(folder_name, self._get_attr_name(f)))` (or
the raw name when `folder_name` is `None`): `pathlib` raises `TypeError` on a
non-string component. -/
def computePath (folder : Option JValue) (name : Option JValue) :
    Except PyErr (Option JValue) :=
  match folder with
  | none => .ok name
  | some (.str fn) =>
      match name with
      | some (.str s) => .ok (some (.str (pathJoin fn s)))
      | _ => .error .typeErr
  | some _ => .error .typeErr

/-- The dict appended for a file record. -/
def mkEntry (d : Descriptor) (f : JValue) (fPath : Option JValue) : FileEntry :=
  { link := getAttrLink d f
    name := fPath
    size := getAttrSize d f
    hash := getAttrHash d f
    hash_type := getAttrHashType d f }

mutual

/-- The method `_get_files_recursive`.  The call stack is modelled by a fuel
parameter (`gas`), exhaustion standing for Python's unbounded recursion: the
source has no depth or cycle guard.  The unraised
`ValueError(...)` on a non-string `url` is a no-op in the source and is
omitted; a non-string `url` instead fails at `requests.get`. -/
def getFilesRecursive (net : Net) (d : Descriptor) (gas : Nat)
    (url folder : Option JValue) : Except PyErr (List FileEntry) :=
  match gas with
  | 0 => .error .recursionErr
  | g + 1 =>
      match httpGet net url with
      | .error e => .error e
      | .ok resp =>
          match raiseForStatus resp with
          | .error e => .error e
          | .ok _ =>
              match respJson resp with
              | .error e => .error e
              | .ok response =>
                  match extractRecords d response with
                  | .error e => .error e
                  | .ok records =>
                      match recLoop net d g folder records [] with
                      | .error e => .error e
                      | .ok page =>
                          match d.paginationPath with
                          | none => .ok page
                          | some jp =>
                              match parseJsonPath jp with
                              | .error _ => .error .parseFailure
                              | .ok e =>
                                  match findPath e response with
                                  | [] => .error .indexErr
                                  | v :: _ =>
                                      if truthy v then
                                        match getFilesRecursive net d g (some v) folder with
                                        | .error e2 => .error e2
                                        | .ok nxt => .ok (page ++ nxt)
                                      else .ok page
  termination_by (gas, 0)

/-- The `for f in files_raw` loop of `_get_files_recursive`, with its `result`
accumulator: folder records extend the accumulator with a recursive traversal,
any other record appends one entry. -/
def recLoop (net : Net) (d : Descriptor) (gas : Nat) (folder : Option JValue)
    (records : List JValue) (acc : List FileEntry) : Except PyErr (List FileEntry) :=
  match records with
  | [] => .ok acc
  | f :: fs =>
      match computePath folder (getAttrName d f) with
      | .error e => .error e
      | .ok fPath =>
          if isStrVal (getAttrKind d f) "folder" then
            match getFilesRecursive net d gas (getAttrLink d f) fPath with
            | .error e => .error e
            | .ok sub => recLoop net d gas folder fs (acc ++ sub)
          else
            recLoop net d gas folder fs (acc ++ [mkEntry d f fPath])
  termination_by (gas, records.length + 1)

end

/-- Propagating `Except`: apply a function under success. -/
def emap (f : α → β) : Except PyErr α → Except PyErr β
  | .error e => .error e
  | .ok a => .ok (f a)

/-- What one record contributes to the listing, stated the way the
specification reads: a folder record contributes the recursive traversal of
its link under the joined prefix, any other record contributes exactly one
entry. -/
def processOne (net : Net) (d : Descriptor) (gas : Nat) (folder : Option JValue)
    (f : JValue) : Except PyErr (List FileEntry) :=
  match computePath folder (getAttrName d f) with
  | .error e => .error e
  | .ok fPath =>
      if isStrVal (getAttrKind d f) "folder" then
        getFilesRecursive net d gas (getAttrLink d f) fPath
      else .ok [mkEntry d f fPath]

/-- The contributions of a record array, concatenated in record order. -/
def processRecords (net : Net) (d : Descriptor) (gas : Nat) (folder : Option JValue) :
    List JValue → Except PyErr (List FileEntry)
  | [] => .ok []
  | f :: fs =>
      match processOne net d gas folder f with
      | .error e => .error e
      | .ok xs => emap (fun ys => xs ++ ys) (processRecords net d gas folder fs)

/-- What pagination contributes to a page: nothing when no pagination path is
declared or the extracted link is falsy, and otherwise the traversal of the
next page under the same folder prefix. -/
def paginationResults (net : Net) (d : Descriptor) (gas : Nat) (folder : Option JValue)
    (response : JValue) : Except PyErr (List FileEntry) :=
  match d.paginationPath with
  | none => .ok []
  | some jp =>
      match parseJsonPath jp with
      | .error _ => .error .parseFailure
      | .ok e =>
          match findPath e response with
          | [] => .error .indexErr
          | v :: _ =>
              if truthy v then getFilesRecursive net d gas (some v) folder
              else .ok []

/-- A compiled Python regular expression, restricted to the constructs the
filter patterns use: literal characters (covering escapes such as a literal
dot), the any-character dot, and the end anchor. -/
inductive RTok where
  | lit (c : Char)
  | dot
  | anchorEnd
  deriving DecidableEq

/-- Matching a token list against input characters, starting at the current
position; the pattern need not consume the whole input. -/
def reTokensMatch : List RTok → List Char → Bool
  | [], _ => true
  | .anchorEnd :: ps, [] => reTokensMatch ps []
  | .anchorEnd :: _, _ :: _ => false
  | .lit c :: ps, x :: xs => c == x && reTokensMatch ps xs
  | .dot :: ps, _ :: xs => reTokensMatch ps xs
  | .lit _ :: _, [] => false
  | .dot :: _, [] => false

/-- Python `re.match`: the pattern is anchored at the start of the string and
only there. -/
def reMatch (p : List RTok) (s : String) : Bool :=
  reTokensMatch p s.toList

/-- The compiled form of the pattern string containing a backslash, a dot,
the letters `csv` and a dollar: a literal dot, three literals, end anchor. -/
def csvPattern : List RTok :=
  [.lit '.', .lit 'c', .lit 's', .lit 'v', .anchorEnd]

/-- The constructor arguments of `DatasetDownloader`.  `filter_files` is the
compiled filter pattern, `none` when unset or empty (both falsy in
`if self.filter_files`). -/
structure Config where
  max_file_size : Option Int
  filter_files : Option (List RTok)
  force_download : Bool
  progress : Bool
  unzip : Bool
  checksum : Bool
  print_only : Bool
  params : Option ParamsDict

/-- The local file system: a map from paths to file contents. -/
abbrev Fs : Type := List (String × String)

/-- Python integer coercion for comparisons: JSON numbers compare directly and
booleans count as zero or one; comparing anything else with an integer raises
`TypeError`. -/
def pyInt : JValue → Except PyErr Int
  | .num n => .ok n
  | .bool b => .ok (if b then 1 else 0)
  | _ => .error .typeErr

/-- The size-skip test of `download_file`: skip when the entry size is known,
a threshold is set, and the size is at or above the threshold. -/
def sizeSkipTest (cfg : Config) (file_size : Option JValue) : Except PyErr Bool :=
  match file_size, cfg.max_file_size with
  | some v, some m =>
      match pyInt v with
      | .error e => .error e
      | .ok n => .ok (m ≤ n)
  | _, _ => .ok false

/-- The filter-skip test of `download_file`: skip when a filter pattern is set
and `re.match` fails on the entry name; `re.match` raises `TypeError` on a
non-string name. -/
def filterSkipTest (cfg : Config) (file_name : Option JValue) : Except PyErr Bool :=
  match cfg.filter_files with
  | none => .ok false
  | some pat =>
      match file_name with
      | some (.str s) => .ok (!reMatch pat s)
      | _ => .error .typeErr

/-- Observable actions of a run: status lines, network fetches, directory
creation, byte writes and the checksum report. -/
inductive Event where
  | skipped (name : Option JValue)
  | complete (name : Option JValue)
  | alreadyExists (name : Option JValue)
  | fetched (url : String)
  | mkdirp (path : String)
  | wrote (path : String) (content : String)
  | checksumReport (path : String) (report : List (String × Bool))
  | checksumFailedLog

/-- Whether an event writes bytes under the destination. -/
def Event.isWrite : Event → Bool
  | .wrote _ _ => true
  | _ => false

/-- The method `download_file`: size skip, filter skip, then (unless
`print_only`) fetch, create parent directories, bail out on an existing
destination, and finally write; under `print_only` just report the entry
complete. -/
def downloadFile (cfg : Config) (net : Net) (fs : Fs) (file_link : Option JValue)
    (output_folder : String) (file_name : Option JValue) (file_size : Option JValue) :
    Except PyErr (List Event × Fs) :=
  match sizeSkipTest cfg file_size with
  | .error e => .error e
  | .ok true => .ok ([.skipped file_name], fs)
  | .ok false =>
      match filterSkipTest cfg file_name with
      | .error e => .error e
      | .ok true => .ok ([.skipped file_name], fs)
      | .ok false =>
          if cfg.print_only then .ok ([.complete file_name], fs)
          else
            match file_link with
            | some (.str u) =>
                (match net u with
                 | none => .error .connectionErr
                 | some resp =>
                     if 400 ≤ resp.status then .error .httpErr
                     else
                       match file_name with
                       | some (.str nm) =>
                           let fp := pathJoin output_folder nm
                           if !cfg.force_download && dictContains fs fp then
                             .ok ([.fetched u, .mkdirp (dirname fp),
                                   .alreadyExists file_name], fs)
                           else
                             .ok ([.fetched u, .mkdirp (dirname fp),
                                   .wrote fp resp.content],
                                  dictInsert fs fp resp.content)
                       | _ => .error .typeErr)
            | _ => .error .connectionErr

/-- The zip test of `_get` on the sole entry: `link.endswith` first (an absent
link raises `AttributeError`), then `name.endswith`, with Python's
short-circuit `or`. -/
def zipFlagCheck (f : FileEntry) : Except PyErr Bool :=
  match f.link with
  | some (.str s) =>
      if strEnds s ".zip" then .ok true
      else
        match f.name with
        | some (.str t) => .ok (strEnds t ".zip")
        | _ => .error .attrErr
  | _ => .error .attrErr

/-- The digest functions of `hashlib`, as an oracle from file bytes to hex
digests. -/
structure Hashers where
  md5 : String → String
  sha1 : String → String
  sha224 : String → String
  sha256 : String → String
  sha384 : String → String
  sha512 : String → String

/-- Everything outside the process: the network, zip decoding, which file
operations fail, the clock digits and the digest functions. -/
structure World where
  net : Net
  zipEntries : String → Option (List (String × String))
  ioFail : String → Bool
  timeNow : String
  hashers : Hashers

/-- The member-extraction loop of `_unpack_single_folder`: an empty member
name raises `IndexError` at `filename[-1]`, a directory marker is skipped, and
any other member is written under its base name only. -/
def extractMembers (output_folder : String) :
    List (String × String) → List Event → Fs → Except PyErr (List Event × Fs)
  | [], evs, fs => .ok (evs, fs)
  | (fn, data) :: rest, evs, fs =>
      if fn == "" then .error .indexErr
      else if strEnds fn "/" then extractMembers output_folder rest evs fs
      else
        let p := pathJoin output_folder (basename fn)
        extractMembers output_folder rest (evs ++ [.wrote p data]) (dictInsert fs p data)

/-- The method `_unpack_single_folder`: fetch the archive fully, decode it
(raising on a bad archive), and extract the members flat. -/
def unpackSingleFolder (w : World) (zip_url : Option JValue) (output_folder : String)
    (fs : Fs) : Except PyErr (List Event × Fs) :=
  match zip_url with
  | some (.str u) =>
      match w.net u with
      | none => .error .connectionErr
      | some resp =>
          if 400 ≤ resp.status then .error .httpErr
          else
            match w.zipEntries resp.content with
            | none => .error .badZip
            | some members => extractMembers output_folder members [.fetched u] fs
  | _ => .error .connectionErr

/-- The non-directory members of an archive under their base names. -/
def flatMembers (members : List (String × String)) : List (String × String) :=
  (members.filter (fun m => !(strEnds m.1 "/"))).map (fun m => (basename m.1, m.2))

/-- The write events flat extraction produces, in member order. -/
def memberWriteEvents (output_folder : String) (members : List (String × String)) :
    List Event :=
  (flatMembers members).map (fun m => .wrote (pathJoin output_folder m.1) m.2)

/-- The file system after flat extraction. -/
def extractedFs (output_folder : String) (members : List (String × String)) (fs : Fs) : Fs :=
  (flatMembers members).foldl (fun a m => dictInsert a (pathJoin output_folder m.1) m.2) fs

/-- The comparison `x["name"] == file` used by the checksum pass to match a
file entry to a walked file: Python equality between the whole stored name and
the walked file's base name. -/
def entryNameEq (e : FileEntry) (file : String) : Bool :=
  match e.name with
  | some (.str s) => s == file
  | _ => false

/-- The digest dispatch of `_check_checksums`: one `hashlib` call for each
recognized algorithm name, `None` for anything else. -/
def computeHash (h : Hashers) (htype : Option JValue) (content : String) : Option String :=
  if isStrVal htype "md5" then some (h.md5 content)
  else if isStrVal htype "sha1" then some (h.sha1 content)
  else if isStrVal htype "sha224" then some (h.sha224 content)
  else if isStrVal htype "sha256" then some (h.sha256 content)
  else if isStrVal htype "sha384" then some (h.sha384 content)
  else if isStrVal htype "sha512" then some (h.sha512 content)
  else none

/-- Python equality `hash == newhash` between a possibly absent declared hash
and a possibly absent recomputed digest (`None == None` is true). -/
def pyEqHash (hash0 : Option JValue) (newhash : Option String) : Bool :=
  match hash0, newhash with
  | none, none => true
  | some (.str h), some n => h == n
  | _, _ => false

/-- The files `os.walk` yields under a root, as (directory, base name) pairs
derived from the modelled file system. -/
def walkFiles (fs : Fs) (root : String) : List (String × String) :=
  fs.filterMap (fun kv =>
    if strStarts kv.1 (root ++ "/") then some (dirname kv.1, basename kv.1) else none)

/-- The walk loop of `_check_checksums`: match each walked file against the
entry list by whole-name equality (first match wins, a missing match leaves
hash and algorithm `None` via the caught `IndexError`), recompute the digest,
and record the comparison only when both a hash and an algorithm were
declared.  Opening a file can fail, which aborts the loop. -/
def checksumLoop (w : World) (fs : Fs) (files_info : List FileEntry) :
    List (String × String) → List (String × Bool) → Except PyErr (List (String × Bool))
  | [], acc => .ok acc
  | (subdir, file) :: rest, acc =>
      let filepath := pathJoin subdir file
      let fcomp := files_info.filter (fun e => entryNameEq e file)
      let hash0 := match fcomp with
        | [] => none
        | e :: _ => e.hash
      let htype0 := match fcomp with
        | [] => none
        | e :: _ => e.hash_type
      if w.ioFail filepath then .error .ioErr
      else
        let newhash := computeHash w.hashers htype0 ((dictGet fs filepath).getD "")
        let acc2 :=
          if hash0.isSome && htype0.isSome then dictInsert acc file (pyEqHash hash0 newhash)
          else acc
        checksumLoop w fs files_info rest acc2

/-- The serialized form of the checksum report (`json.dump`). -/
def renderReport : List (String × Bool) → String
  | [] => ""
  | (k, b) :: rest => k ++ (if b then ":true;" else ":false;") ++ renderReport rest

/-- The body of the outer `try` of `_check_checksums`: the walk loop, then the
`generated` directory and the timestamped report file, either of which can
fail. -/
def checkChecksumsTry (w : World) (output_folder : String) (fs : Fs)
    (files_info : List FileEntry) : Except PyErr (List Event × Fs) :=
  match checksumLoop w fs files_info (walkFiles fs output_folder) [] with
  | .error e => .error e
  | .ok checksums =>
      let generatedPath := output_folder ++ "/generated"
      if w.ioFail generatedPath then .error .ioErr
      else
        let reportPath := generatedPath ++ "/checksums" ++ w.timeNow ++ ".json"
        if w.ioFail reportPath then .error .ioErr
        else
          .ok ([.mkdirp generatedPath, .checksumReport reportPath checksums],
               dictInsert fs reportPath (renderReport checksums))

/-- The method `_check_checksums`: the whole pass runs inside one `try`, and
any exception is logged and discarded. -/
def checkChecksums (w : World) (output_folder : String) (fs : Fs)
    (files_info : List FileEntry) : List Event × Fs :=
  match checkChecksumsTry w output_folder fs files_info with
  | .ok r => r
  | .error _ => ([.checksumFailedLog], fs)

/-- One walked file's effect on the report, stated the way the amended claim
reads: look up the first entry whose whole name equals the file's base name,
and record the digest comparison only when that entry declares both a hash and
an algorithm. -/
def checksumStep (w : World) (fs : Fs) (files_info : List FileEntry)
    (acc : List (String × Bool)) (sf : String × String) : List (String × Bool) :=
  match files_info.find? (fun e => entryNameEq e sf.2) with
  | none => acc
  | some e =>
      if e.hash.isSome && e.hash_type.isSome then
        dictInsert acc sf.2
          (pyEqHash e.hash
            (computeHash w.hashers e.hash_type ((dictGet fs (pathJoin sf.1 sf.2)).getD "")))
      else acc

/-- The report `_check_checksums` would persist: the fold of `checksumStep`
over the walked files. -/
def checksumReportSpec (w : World) (fs : Fs) (files_info : List FileEntry)
    (walk : List (String × String)) : List (String × Bool) :=
  walk.foldl (checksumStep w fs files_info) []

/-- The `for f in self.files` loop of `_get`, threading the file system and
collecting the events of each `download_file` call in order. -/
def dlLoop (cfg : Config) (net : Net) (fs : Fs) (files : List FileEntry)
    (output_folder : String) : Except PyErr (List Event × Fs) :=
  match files with
  | [] => .ok ([], fs)
  | f :: rest =>
      match downloadFile cfg net fs f.link output_folder f.name f.size with
      | .error e => .error e
      | .ok (evs, fs2) =>
          match dlLoop cfg net fs2 rest output_folder with
          | .error e => .error e
          | .ok (evs2, fs3) => .ok (evs ++ evs2, fs3)

/-- The general path of `_get`: the download loop over all entries, then, when
enabled, the checksum pass over the full entry list (`files_info` has received
every entry once the loop completes). -/
def getRunMain (cfg : Config) (w : World) (fs : Fs) (files : List FileEntry)
    (output_folder : String) : Except PyErr (List Event × Fs) :=
  match dlLoop cfg w.net fs files output_folder with
  | .error e => .error e
  | .ok (evs, fs2) =>
      if cfg.checksum then
        let r := checkChecksums w output_folder fs2 files
        .ok (evs ++ r.1, r.2)
      else .ok (evs, fs2)

/-- The method `_get`: the singleton-zip special case delegates entirely to
`_unpack_single_folder` and returns; every other listing goes through the
download loop and the optional checksum pass. -/
def getRun (cfg : Config) (w : World) (fs : Fs) (files : List FileEntry)
    (output_folder : String) : Except PyErr (List Event × Fs) :=
  match files with
  | [f] =>
      match zipFlagCheck f with
      | .error e => .error e
      | .ok z =>
          if z && cfg.unzip then unpackSingleFolder w f.link output_folder fs
          else getRunMain cfg w fs [f] output_folder
  | _ => getRunMain cfg w fs files output_folder

/-- The status line an entry receives in a dry run, stated the way the claim
reads: skipped by size, else skipped by filter, else complete. -/
def dryEvent (cfg : Config) (f : FileEntry) : Event :=
  match sizeSkipTest cfg f.size with
  | .ok true => .skipped f.name
  | .ok false =>
      match filterSkipTest cfg f.name with
      | .ok true => .skipped f.name
      | _ => .complete f.name
  | .error _ => .complete f.name

/-- An entry whose size and filter tests evaluate without a Python error. -/
def entryPolicyOk (cfg : Config) (f : FileEntry) : Prop :=
  ∃ b, sizeSkipTest cfg f.size = .ok b ∧
    (b = false → ∃ c, filterSkipTest cfg f.name = .ok c)

/-- A listing that does not trigger the singleton-zip delegation: either it is
not a singleton, or the zip test evaluates to false, or auto-expansion is off. -/
def specialCaseClear (cfg : Config) (files : List FileEntry) : Prop :=
  match files with
  | [f] => zipFlagCheck f = .ok false ∨ (zipFlagCheck f = .ok true ∧ cfg.unzip = false)
  | _ => True

/-- Python name mangling: inside a class body an identifier starting with two
underscores (and not ending with two) is rewritten to carry the class name.
String literals are not identifiers and are never mangled. -/
def pyMangle (cls attr : String) : String :=
  if strStarts attr "__" && !(strEnds attr "__") then "_" ++ cls ++ attr else attr

/-- The runtime attribute dictionary of one `DatasetDownloader` instance,
together with counters for how often the URL was parsed (`_parse_url`) and how
often the listing traversal ran. -/
structure Session where
  boundAttrs : List String
  paramsStore : Option ParamsDict
  filesStore : Option (List FileEntry)
  urlParseCount : Nat
  traverseCount : Nat

/-- Membership of a string in a list of attribute names. -/
def strListHas : List String → String → Bool
  | [], _ => false
  | x :: xs, n => x == n || strListHas xs n

/-- Python `hasattr(self, name)` over the modelled attribute dictionary. -/
def hasattrS (s : Session) (name : String) : Bool :=
  strListHas s.boundAttrs name

/-- Recording that an attribute is now bound on the instance. -/
def addAttr (l : List String) (name : String) : List String :=
  if strListHas l name then l else l ++ [name]

/-- The parameter merge of `_params`: a falsy `self.params` (absent or empty)
yields the URL-derived parameters alone, otherwise a copy of the caller
parameters updated with the URL-derived ones. -/
def resolveParams (cfgParams : Option ParamsDict) (urlParams : ParamsDict) : ParamsDict :=
  match cfgParams with
  | none => urlParams
  | some p => if p.isEmpty then urlParams else dictUpdate p urlParams

/-- The property `_params`.  The cache test is `hasattr(self, "__params")` on
the literal string, while the assignment `self.__params = ...` uses an
identifier, which Python mangles to `_DatasetDownloader__params`; the final
`return self.__params` reads the mangled attribute just stored.  `urlParams`
is the group dict a successful `_parse_url` returns. -/
def paramsProperty (cfgParams : Option ParamsDict) (urlParams : ParamsDict)
    (s : Session) : ParamsDict × Session :=
  if hasattrS s "__params" then (s.paramsStore.getD [], s)
  else
    let s1 : Session := { s with urlParseCount := s.urlParseCount + 1 }
    let v := resolveParams cfgParams urlParams
    let s2 : Session :=
      { s1 with
        boundAttrs := addAttr s1.boundAttrs (pyMangle "DatasetDownloader" "__params")
        paramsStore := some v }
    (s2.paramsStore.getD [], s2)

/-- The property `files`: the cache test `hasattr(self, "_files")` and the
assignment `self._files = ...` use the same single-underscore name, so the
cache works; `traversal` is the listing `_get_files_recursive` would return. -/
def filesProperty (traversal : List FileEntry) (s : Session) : List FileEntry × Session :=
  if hasattrS s "_files" then (s.filesStore.getD [], s)
  else
    let s1 : Session := { s with traverseCount := s.traverseCount + 1 }
    let s2 : Session :=
      { s1 with
        boundAttrs := addAttr s1.boundAttrs "_files"
        filesStore := some traversal }
    (traversal, s2)

/-- Whether an embedded computation finished without raising. -/
def exOk : Except PyErr α → Bool
  | .ok _ => true
  | .error _ => false

/-! Association-list lemmas shared by several results. -/

theorem dictGet_mapRepl_self (k : String) (v : α) :
    ∀ d : List (String × α), dictContains d k = true →
      dictGet (d.map (replBind k v)) k = some v := by
  intro d
  induction d with
  | nil => intro h; simp [dictContains] at h
  | cons kv rest ih =>
      intro h
      by_cases hk : (kv.1 == k) = true
      · have hhead : replBind k v kv = (k, v) := by simp [replBind, hk]
        simp only [List.map_cons, hhead, dictGet]
        simp
      · have hkf : (kv.1 == k) = false := by simpa using hk
        simp only [dictContains, hkf, Bool.false_or] at h
        have hhead : replBind k v kv = kv := by simp [replBind, hkf]
        simp only [List.map_cons, hhead, dictGet, hkf]
        simp only [Bool.false_eq_true, if_false]
        exact ih h

theorem dictGet_mapRepl_ne (k k2 : String) (v : α) (hne : ¬(k2 = k)) :
    ∀ d : List (String × α),
      dictGet (d.map (replBind k v)) k2 = dictGet d k2 := by
  intro d
  induction d with
  | nil => rfl
  | cons kv rest ih =>
      by_cases hk : (kv.1 == k) = true
      · have hkk : kv.1 = k := by simpa [beq_iff_eq] using hk
        have hhead : replBind k v kv = (k, v) := by simp [replBind, hk]
        have h1 : (k == k2) = false := by
          simp only [beq_eq_false_iff_ne, ne_eq]; exact fun hc => hne hc.symm
        have h2 : (kv.1 == k2) = false := by rw [hkk]; exact h1
        simp only [List.map_cons, hhead, dictGet, h1, h2]
        simp only [Bool.false_eq_true, if_false]
        exact ih
      · have hhead : replBind k v kv = kv := by simp [replBind, hk]
        simp only [List.map_cons, hhead, dictGet]
        by_cases hk2 : (kv.1 == k2) = true
        · simp only [hk2, if_true]
        · have hk2f : (kv.1 == k2) = false := by simpa using hk2
          simp only [hk2f, Bool.false_eq_true, if_false]
          exact ih

theorem dictGet_appendOne_self (k : String) (v : α) :
    ∀ d : List (String × α), dictContains d k = false →
      dictGet (d ++ [(k, v)]) k = some v := by
  intro d
  induction d with
  | nil => intro _; simp [dictGet]
  | cons kv rest ih =>
      intro h
      simp only [dictContains, Bool.or_eq_false_iff] at h
      simp only [List.cons_append, dictGet, h.1, if_false]
      exact ih h.2

theorem dictGet_appendOne_ne (k k2 : String) (v : α) (hne : ¬(k2 = k)) :
    ∀ d : List (String × α), dictGet (d ++ [(k, v)]) k2 = dictGet d k2 := by
  intro d
  induction d with
  | nil =>
      have h1 : ¬(k == k2) = true := by
        simp only [beq_iff_eq]; exact fun hc => hne hc.symm
      simp [dictGet, h1]
  | cons kv rest ih =>
      by_cases hk2 : (kv.1 == k2) = true
      · simp [dictGet, hk2]
      · simp [dictGet, hk2, ih]

theorem dictGet_insert_self (d : List (String × α)) (k : String) (v : α) :
    dictGet (dictInsert d k v) k = some v := by
  unfold dictInsert
  by_cases h : dictContains d k = true
  · simp only [h, if_true]
    exact dictGet_mapRepl_self k v d h
  · simp only [h, if_false]
    exact dictGet_appendOne_self k v d (by simpa using h)

theorem dictGet_insert_ne (d : List (String × α)) (k k2 : String) (v : α)
    (hne : ¬(k2 = k)) : dictGet (dictInsert d k v) k2 = dictGet d k2 := by
  unfold dictInsert
  by_cases h : dictContains d k = true
  · simp only [h, if_true]
    exact dictGet_mapRepl_ne k k2 v hne d
  · simp only [h, if_false]
    exact dictGet_appendOne_ne k k2 v hne d

theorem dictGet_eq_none_of_not_mem (d : List (String × α)) (k : String)
    (h : k ∉ d.map Prod.fst) : dictGet d k = none := by
  induction d with
  | nil => simp [dictGet]
  | cons kv rest ih =>
      simp only [List.map_cons, List.mem_cons, not_or] at h
      have : ¬(kv.1 == k) = true := by
        simp only [beq_iff_eq]
        exact fun hc => h.1 hc.symm
      simp [dictGet, this, ih h.2]

theorem dictGet_update (u : List (String × α)) : ∀ p : List (String × α), ∀ k : String,
    (u.map Prod.fst).Nodup →
    dictGet (dictUpdate p u) k = orGet (dictGet u k) (dictGet p k) := by
  induction u with
  | nil => intro p k _; simp [dictUpdate, dictGet, orGet]
  | cons kv rest ih =>
      intro p k hu
      simp only [List.map_cons, List.nodup_cons] at hu
      have step : dictUpdate p (kv :: rest) = dictUpdate (dictInsert p kv.1 kv.2) rest := rfl
      rw [step, ih (dictInsert p kv.1 kv.2) k hu.2]
      by_cases hk : kv.1 == k
      · have hkk : kv.1 = k := by simpa [beq_iff_eq] using hk
        have hrest : dictGet rest k = none :=
          dictGet_eq_none_of_not_mem rest k (hkk ▸ hu.1)
        simp only [dictGet, hk, if_true, hrest, orGet]
        rw [hkk]
        exact dictGet_insert_self p k kv.2
      · have hne : ¬(k = kv.1) := by
          simp only [beq_iff_eq] at hk
          exact fun hc => hk hc.symm
        rw [dictGet_insert_ne p kv.1 k kv.2 hne]
        simp [dictGet, hk]

/-- C7: for every record and every path-expression string, `_get_attr_attr`
is total: when the expression reading or the match lookup raises, the caller
receives `None`, and a successful lookup yields its value; no error escapes. -/
theorem getAttrAttr_never_raises (record : JValue) (jsonp : String) :
    (∀ e, getAttrAttrRaw record jsonp = .error e → getAttrAttr record jsonp = none) ∧
    (∀ v, getAttrAttrRaw record jsonp = .ok v → getAttrAttr record jsonp = pyOpt v) := by
  constructor
  · intro e he; simp [getAttrAttr, he]
  · intro v hv; simp [getAttrAttr, hv]

/-- Witness for C7 at a malformed expression. -/
theorem getAttrAttr_never_raises_w :
    getAttrAttrRaw JValue.null "kind" = .error PyErr.parseFailure ∧
    getAttrAttr JValue.null "kind" = none :=
  ⟨rfl, (getAttrAttr_never_raises JValue.null "kind").1 PyErr.parseFailure rfl⟩

theorem strListHas_append_one (l : List String) (n m : String) :
    strListHas (l ++ [n]) m = (strListHas l m || (n == m)) := by
  induction l with
  | nil => simp [strListHas]
  | cons x xs ih => simp [strListHas, ih, Bool.or_assoc]

theorem strListHas_addAttr (l : List String) (n m : String) :
    strListHas (addAttr l n) m = (strListHas l m || (n == m)) := by
  unfold addAttr
  by_cases h : strListHas l n = true
  · simp only [h, if_true]
    by_cases hnm : (n == m) = true
    · have hv : n = m := by simpa using hnm
      subst hv
      simp [h]
    · have hf : (n == m) = false := by simpa using hnm
      simp [hf]
  · have hf : strListHas l n = false := by simpa using h
    simp only [hf, Bool.false_eq_true, if_false]
    exact strListHas_append_one l n m

theorem paramsProperty_miss_val (cp : Option ParamsDict) (u : ParamsDict) (s : Session)
    (h : hasattrS s "__params" = false) :
    (paramsProperty cp u s).1 = resolveParams cp u := by
  unfold paramsProperty
  rw [if_neg (by simp [h])]
  rfl

theorem paramsProperty_miss_count (cp : Option ParamsDict) (u : ParamsDict) (s : Session)
    (h : hasattrS s "__params" = false) :
    ((paramsProperty cp u s).2).urlParseCount = s.urlParseCount + 1 := by
  unfold paramsProperty
  rw [if_neg (by simp [h])]

theorem paramsProperty_miss_attrs (cp : Option ParamsDict) (u : ParamsDict) (s : Session)
    (h : hasattrS s "__params" = false) :
    ((paramsProperty cp u s).2).boundAttrs =
      addAttr s.boundAttrs (pyMangle "DatasetDownloader" "__params") := by
  unfold paramsProperty
  rw [if_neg (by simp [h])]

theorem filesProperty_miss_count (tr : List FileEntry) (s : Session)
    (h : hasattrS s "_files" = false) :
    ((filesProperty tr s).2).traverseCount = s.traverseCount + 1 := by
  unfold filesProperty
  rw [if_neg (by simp [h])]

theorem filesProperty_miss_attrs (tr : List FileEntry) (s : Session)
    (h : hasattrS s "_files" = false) :
    ((filesProperty tr s).2).boundAttrs = addAttr s.boundAttrs "_files" := by
  unfold filesProperty
  rw [if_neg (by simp [h])]

theorem filesProperty_hit (tr : List FileEntry) (s : Session)
    (h : hasattrS s "_files" = true) :
    (filesProperty tr s).2 = s := by
  unfold filesProperty
  rw [if_pos h]

/-- C8: when the URL pattern match succeeds, the resolved parameter set is
the caller mapping updated with the URL-derived captures: on a shared key the
URL-derived value wins, and keys only the caller supplied are preserved. -/
theorem params_url_precedence (s : Session) (p u : ParamsDict) (k : String)
    (hfresh : hasattrS s "__params" = false)
    (hu : (u.map Prod.fst).Nodup) :
    dictGet ((paramsProperty (some p) u s).1) k =
      orGet (dictGet u k) (dictGet p k) := by
  rw [paramsProperty_miss_val (some p) u s hfresh]
  unfold resolveParams
  by_cases hp : p.isEmpty = true
  · have hpnil : p = [] := by simpa [List.isEmpty_iff] using hp
    subst hpnil
    simp only [hp, if_true]
    cases hk : dictGet u k with
    | none => simp [orGet, hk, dictGet]
    | some v => simp [orGet, hk]
  · have hpf : p.isEmpty = false := by simpa using hp
    simp only [hpf, Bool.false_eq_true, if_false]
    exact dictGet_update u p k hu

/-- Witness for C8: the URL capture for a shared key wins, a caller-only key
survives. -/
theorem params_url_precedence_w :
    dictGet ((paramsProperty (some [("a", "1"), ("k", "caller")]) [("k", "url")]
        ⟨[], none, none, 0, 0⟩).1) "k" = some "url" ∧
    dictGet ((paramsProperty (some [("a", "1"), ("k", "caller")]) [("k", "url")]
        ⟨[], none, none, 0, 0⟩).1) "a" = some "1" := by
  constructor
  · have h := params_url_precedence ⟨[], none, none, 0, 0⟩ [("a", "1"), ("k", "caller")]
      [("k", "url")] "k" rfl (by simp)
    simpa using h
  · have h := params_url_precedence ⟨[], none, none, 0, 0⟩ [("a", "1"), ("k", "caller")]
      [("k", "url")] "a" rfl (by simp)
    rw [h]
    rfl

/-- C3 settles as a code bug for `_params`: the cache test looks up the
unmangled literal string while the assignment binds the mangled attribute
name, so the test never succeeds and every access of `_params` parses the URL
again; the `files` cache, whose test and assignment agree on the name
`_files`, does work.  The two counters record the recomputations. -/
theorem params_cache_never_hits (cp : Option ParamsDict) (u : ParamsDict)
    (tr : List FileEntry) (s : Session)
    (hp : hasattrS s "__params" = false) (hf : hasattrS s "_files" = false) :
    ((paramsProperty cp u ((paramsProperty cp u s).2)).2).urlParseCount
        = s.urlParseCount + 2 ∧
    ((filesProperty tr ((filesProperty tr s).2)).2).traverseCount
        = s.traverseCount + 1 := by
  constructor
  · have hmangle : (pyMangle "DatasetDownloader" "__params" == "__params") = false := by
      decide
    have h2 : hasattrS ((paramsProperty cp u s).2) "__params" = false := by
      unfold hasattrS
      rw [paramsProperty_miss_attrs cp u s hp, strListHas_addAttr, hmangle]
      simp only [hasattrS] at hp
      simp [hp]
    rw [paramsProperty_miss_count cp u ((paramsProperty cp u s).2) h2,
      paramsProperty_miss_count cp u s hp]
  · have h2 : hasattrS ((filesProperty tr s).2) "_files" = true := by
      unfold hasattrS
      rw [filesProperty_miss_attrs tr s hf, strListHas_addAttr]
      simp
    rw [filesProperty_hit tr ((filesProperty tr s).2) h2,
      filesProperty_miss_count tr s hf]

/-- Witness for C3 on a fresh session: two accesses of each property. -/
theorem params_cache_never_hits_w :
    ((paramsProperty none [] ((paramsProperty none [] ⟨[], none, none, 0, 0⟩).2)).2).urlParseCount = 2 ∧
    ((filesProperty [] ((filesProperty [] ⟨[], none, none, 0, 0⟩).2)).2).traverseCount = 1 := by
  have h := params_cache_never_hits none [] [] ⟨[], none, none, 0, 0⟩ rfl rfl
  simpa using h

/-- C10: for an entry that passes the size and filter policies with
`print_only` false, the remote GET is issued (and a non-success status
raises) before the destination-exists test, so with `force_download` false and
an existing destination the entry is reported already existing with nothing
written, yet the fetch still happened, and a failing fetch aborts the run. -/
theorem download_fetch_precedes_exists_check (cfg : Config) (net : Net) (fs : Fs)
    (u nm out : String) (size : Option JValue)
    (hprint : cfg.print_only = false)
    (hforce : cfg.force_download = false)
    (hsize : sizeSkipTest cfg size = .ok false)
    (hfilter : filterSkipTest cfg (some (.str nm)) = .ok false)
    (hexists : dictContains fs (pathJoin out nm) = true) :
    (net u = none →
      downloadFile cfg net fs (some (.str u)) out (some (.str nm)) size =
        .error .connectionErr) ∧
    (∀ resp, net u = some resp → 400 ≤ resp.status →
      downloadFile cfg net fs (some (.str u)) out (some (.str nm)) size =
        .error .httpErr) ∧
    (∀ resp, net u = some resp → resp.status < 400 →
      downloadFile cfg net fs (some (.str u)) out (some (.str nm)) size =
        .ok ([.fetched u, .mkdirp (dirname (pathJoin out nm)),
              .alreadyExists (some (.str nm))], fs)) := by
  refine ⟨?_, ?_, ?_⟩
  · intro hnet
    simp [downloadFile, hsize, hfilter, hprint, hnet]
  · intro resp hnet hst
    simp [downloadFile, hsize, hfilter, hprint, hnet, hst]
  · intro resp hnet hst
    have hst2 : ¬(400 ≤ resp.status) := not_le.mpr hst
    simp [downloadFile, hsize, hfilter, hprint, hnet, hst2, hforce, hexists]

/-- Witness for C10: destination already holds the file, the fetch succeeds,
and the entry is reported already existing without a write. -/
theorem download_fetch_precedes_exists_check_w :
    downloadFile ⟨none, none, false, true, true, false, false, none⟩
      (fun v => if v == "http://x/f" then some ⟨200, none, "bb"⟩ else none)
      [("out/a.txt", "old")] (some (.str "http://x/f")) "out" (some (.str "a.txt")) none =
      .ok ([.fetched "http://x/f", .mkdirp "out", .alreadyExists (some (.str "a.txt"))],
           [("out/a.txt", "old")]) := by
  have h := (download_fetch_precedes_exists_check
      ⟨none, none, false, true, true, false, false, none⟩
      (fun v => if v == "http://x/f" then some ⟨200, none, "bb"⟩ else none)
      [("out/a.txt", "old")] "http://x/f" "a.txt" "out" none
      rfl rfl rfl rfl rfl).2.2 ⟨200, none, "bb"⟩ rfl (by decide)
  simpa using h

theorem reTokensMatch_csv (l : List Char) :
    reTokensMatch csvPattern l = true ↔ l = ['.', 'c', 's', 'v'] := by
  rcases l with _ | ⟨a, _ | ⟨b, _ | ⟨c, _ | ⟨d, _ | ⟨e, rest⟩⟩⟩⟩⟩
  all_goals simp [csvPattern, reTokensMatch, and_assoc]
  all_goals constructor
  all_goals intro h
  all_goals try obtain ⟨h1, h2, h3, h4⟩ := h
  all_goals subst_eqs
  all_goals simp

/-- With `re.match` semantics the pattern for names that in search semantics
would mean "ends in .csv" actually accepts exactly the name that is the
four-character string, dot then c then s then v. -/
theorem reMatch_csv_iff (s : String) : reMatch csvPattern s = true ↔ s = ".csv" := by
  rw [reMatch, reTokensMatch_csv]
  constructor
  · intro h
    cases s with
    | mk data =>
        have : data = ['.', 'c', 's', 'v'] := h
        rw [this]
  · intro h
    rw [h]
    decide

/-- C5 counterexample: with the filter compiled from the dot-csv-dollar
pattern and an entry named `data.csv`, `download_file` reports the entry
skipped and writes nothing, because `re.match` anchors the pattern at the
start of the name; the claim expects exactly the `.csv`-suffixed entries to
be written. -/
theorem filter_csv_counterexample :
    downloadFile ⟨none, some csvPattern, false, true, true, false, false, none⟩
      (fun _ => some ⟨200, none, "bytes"⟩) [] (some (.str "http://x/d")) "out"
      (some (.str "data.csv")) none =
      .ok ([.skipped (some (.str "data.csv"))], []) ∧
    reMatch csvPattern "data.csv" = false :=
  ⟨rfl, rfl⟩

/-- C5 amended: with the filter pattern compiled from dot-csv-dollar,
`re.match` anchors at position 0, so exactly the entries whose whole name is
`.csv` are fetched and written; every other name, including names that merely
end in `.csv`, is reported skipped with no fetch and no write. -/
theorem filter_csv_amended (cfg : Config) (net : Net) (fs : Fs) (u nm out : String)
    (hfilter : cfg.filter_files = some csvPattern)
    (hprint : cfg.print_only = false)
    (hsize : sizeSkipTest cfg none = .ok false) :
    (nm ≠ ".csv" →
      downloadFile cfg net fs (some (.str u)) out (some (.str nm)) none =
        .ok ([.skipped (some (.str nm))], fs)) ∧
    (nm = ".csv" → cfg.force_download = true →
      ∀ resp, net u = some resp → resp.status < 400 →
      downloadFile cfg net fs (some (.str u)) out (some (.str nm)) none =
        .ok ([.fetched u, .mkdirp (dirname (pathJoin out nm)),
              .wrote (pathJoin out nm) resp.content],
             dictInsert fs (pathJoin out nm) resp.content)) := by
  have hft : filterSkipTest cfg (some (.str nm)) = .ok (!reMatch csvPattern nm) := by
    simp [filterSkipTest, hfilter]
  constructor
  · intro hne
    have hm : reMatch csvPattern nm = false := by
      rcases hb : reMatch csvPattern nm with _ | _
      · rfl
      · exact absurd ((reMatch_csv_iff nm).mp hb) hne
    simp [downloadFile, hsize, hft, hm]
  · intro heq hforce resp hnet hst
    have hm : reMatch csvPattern nm = true := (reMatch_csv_iff nm).mpr heq
    have hst2 : ¬(400 ≤ resp.status) := not_le.mpr hst
    simp [downloadFile, hsize, hft, hm, hprint, hnet, hst2, hforce]

/-- Witness for C5's amended statement: a `data.csv` entry is skipped, a
`.csv` entry is written. -/
theorem filter_csv_amended_w :
    downloadFile ⟨none, some csvPattern, true, true, true, false, false, none⟩
      (fun _ => some ⟨200, none, "bytes"⟩) [] (some (.str "http://x/d")) "out"
      (some (.str "data.csv")) none =
      .ok ([.skipped (some (.str "data.csv"))], []) ∧
    downloadFile ⟨none, some csvPattern, true, true, true, false, false, none⟩
      (fun _ => some ⟨200, none, "bytes"⟩) [] (some (.str "http://x/d")) "out"
      (some (.str ".csv")) none =
      .ok ([.fetched "http://x/d", .mkdirp "out", .wrote "out/.csv" "bytes"],
           [("out/.csv", "bytes")]) := by
  constructor
  · exact (filter_csv_amended ⟨none, some csvPattern, true, true, true, false, false, none⟩
      (fun _ => some ⟨200, none, "bytes"⟩) [] "http://x/d" "data.csv" "out"
      rfl rfl rfl).1 (by decide)
  · have h := (filter_csv_amended ⟨none, some csvPattern, true, true, true, false, false, none⟩
      (fun _ => some ⟨200, none, "bytes"⟩) [] "http://x/d" ".csv" "out"
      rfl rfl rfl).2 rfl rfl ⟨200, none, "bytes"⟩ rfl (by decide)
    simpa using h

theorem downloadFile_checksum_irrel (cfg : Config) (b : Bool) (net : Net) (fs : Fs)
    (l : Option JValue) (o : String) (n sz : Option JValue) :
    downloadFile { cfg with checksum := b } net fs l o n sz =
      downloadFile cfg net fs l o n sz := rfl

theorem dlLoop_checksum_irrel (cfg : Config) (b : Bool) (net : Net) (out : String) :
    ∀ files fs, dlLoop { cfg with checksum := b } net fs files out =
      dlLoop cfg net fs files out := by
  intro files
  induction files with
  | nil => intro fs; rfl
  | cons f rest ih =>
      intro fs
      simp only [dlLoop, downloadFile_checksum_irrel]
      cases h : downloadFile cfg net fs f.link out f.name f.size with
      | error e => rfl
      | ok p => simp [ih p.2]

theorem getRunMain_checksum_ok (cfg : Config) (w : World) (fs : Fs)
    (files : List FileEntry) (out : String) :
    exOk (getRunMain { cfg with checksum := true } w fs files out) =
      exOk (getRunMain { cfg with checksum := false } w fs files out) := by
  unfold getRunMain
  rw [dlLoop_checksum_irrel cfg true, dlLoop_checksum_irrel cfg false]
  cases h : dlLoop cfg w.net fs files out with
  | error e => rfl
  | ok p => simp [exOk]

/-- C9: the checksum pass never raises to its caller: every internal failure
of the pass body is caught and replaced by a logged outcome with the file
system untouched, and the success or failure of `_get` is the same whether or
not the checksum pass is enabled. -/
theorem checksum_pass_contained (w : World) (out : String) (fs : Fs)
    (info : List FileEntry) (cfg : Config) (w2 : World) (fs2 : Fs)
    (files : List FileEntry) (out2 : String) :
    (∀ e, checkChecksumsTry w out fs info = .error e →
      checkChecksums w out fs info = ([.checksumFailedLog], fs)) ∧
    exOk (getRun { cfg with checksum := true } w2 fs2 files out2) =
      exOk (getRun { cfg with checksum := false } w2 fs2 files out2) := by
  constructor
  · intro e he
    simp [checkChecksums, he]
  · unfold getRun
    rcases files with _ | ⟨f, _ | ⟨g, rest⟩⟩
    · exact getRunMain_checksum_ok cfg w2 fs2 [] out2
    · cases hz : zipFlagCheck f with
      | error e => simp [hz]
      | ok z =>
          cases z with
          | true =>
              cases hu : cfg.unzip with
              | true => simp [hz, hu]
              | false =>
                  simp only [hz]
                  simpa [hu] using getRunMain_checksum_ok cfg w2 fs2 [f] out2
          | false =>
              simp only [hz]
              simpa using getRunMain_checksum_ok cfg w2 fs2 [f] out2
    · exact getRunMain_checksum_ok cfg w2 fs2 (f :: g :: rest) out2

/-- Witness for C9: a world where every file operation fails; the pass returns
the logged outcome instead of raising. -/
theorem checksum_pass_contained_w :
    checkChecksums
      ⟨fun _ => none, fun _ => none, fun _ => true, "7",
       ⟨fun _ => "h", fun _ => "h", fun _ => "h", fun _ => "h", fun _ => "h", fun _ => "h"⟩⟩
      "out" [("out/x", "a")] [] = ([.checksumFailedLog], [("out/x", "a")]) := by
  exact (checksum_pass_contained
      ⟨fun _ => none, fun _ => none, fun _ => true, "7",
       ⟨fun _ => "h", fun _ => "h", fun _ => "h", fun _ => "h", fun _ => "h", fun _ => "h"⟩⟩
      "out" [("out/x", "a")] [] ⟨none, none, false, true, true, false, false, none⟩
      ⟨fun _ => none, fun _ => none, fun _ => true, "7",
       ⟨fun _ => "h", fun _ => "h", fun _ => "h", fun _ => "h", fun _ => "h", fun _ => "h"⟩⟩
      [] [] "o").1 .ioErr rfl

theorem dlLoop_dry (cfg : Config) (net : Net) (out : String)
    (hprint : cfg.print_only = true) :
    ∀ files fs, (∀ f ∈ files, entryPolicyOk cfg f) →
      dlLoop cfg net fs files out = .ok (files.map (dryEvent cfg), fs) := by
  intro files
  induction files with
  | nil => intro fs _; simp [dlLoop]
  | cons f rest ih =>
      intro fs hpol
      have hrest : ∀ g ∈ rest, entryPolicyOk cfg g := fun g hg => hpol g (by simp [hg])
      obtain ⟨b, hb, hbf⟩ := hpol f (by simp)
      cases b with
      | true =>
          simp [dlLoop, downloadFile, hb, dryEvent, ih fs hrest]
      | false =>
          obtain ⟨c, hc⟩ := hbf rfl
          cases c with
          | true => simp [dlLoop, downloadFile, hb, hc, dryEvent, ih fs hrest]
          | false => simp [dlLoop, downloadFile, hb, hc, hprint, dryEvent, ih fs hrest]

/-- C2 amended: with `print_only` true, provided the listing does not trigger
the singleton-zip delegation and the checksum pass is off, `_get` consults the
network for no entry, writes nothing, and reports exactly the size- and
filter-skipped entries skipped and every other entry complete; moreover none
of the reported events is a fetch or a write. -/
theorem dry_run_no_fetch_no_write (cfg : Config) (w : World) (fs : Fs)
    (files : List FileEntry) (out : String)
    (hprint : cfg.print_only = true)
    (hchk : cfg.checksum = false)
    (hspecial : specialCaseClear cfg files)
    (hpol : ∀ f ∈ files, entryPolicyOk cfg f) :
    getRun cfg w fs files out = .ok (files.map (dryEvent cfg), fs) ∧
    (∀ ev ∈ files.map (dryEvent cfg), ev.isWrite = false ∧ ∀ u, ev ≠ .fetched u) := by
  have hmain : getRunMain cfg w fs files out = .ok (files.map (dryEvent cfg), fs) := by
    unfold getRunMain
    rw [dlLoop_dry cfg w.net out hprint files fs hpol]
    simp [hchk]
  constructor
  · unfold getRun
    rcases files with _ | ⟨f, _ | ⟨g, rest⟩⟩
    · exact hmain
    · unfold specialCaseClear at hspecial
      rcases hspecial with hz | ⟨hz, hu⟩
      · simp only [hz]
        simpa using hmain
      · simp only [hz, hu]
        simpa using hmain
    · exact hmain
  · intro ev hev
    simp only [List.mem_map] at hev
    obtain ⟨f, _, hf⟩ := hev
    subst hf
    unfold dryEvent
    rcases sizeSkipTest cfg f.size with _ | b
    · exact ⟨rfl, fun u h => by cases h⟩
    · cases b
      · rcases filterSkipTest cfg f.name with _ | c
        · exact ⟨rfl, fun u h => by cases h⟩
        · cases c
          · exact ⟨rfl, fun u h => by cases h⟩
          · exact ⟨rfl, fun u h => by cases h⟩
      · exact ⟨rfl, fun u h => by cases h⟩

/-- C2 counterexample: a singleton listing whose entry is a zip with `unzip`
enabled, under `print_only` true, still fetches the archive and writes its
members: the special case of `_get` runs before any dry-run test. -/
theorem dry_run_counterexample :
    getRun ⟨none, none, false, true, true, false, true, none⟩
      ⟨(fun v => if v == "http://h/a.zip" then some ⟨200, none, "Z"⟩ else none),
       (fun c => if c == "Z" then some [("inner/data.txt", "payload")] else none),
       (fun _ => false), "1",
       ⟨fun _ => "h", fun _ => "h", fun _ => "h", fun _ => "h", fun _ => "h", fun _ => "h"⟩⟩
      [] [⟨some (.str "http://h/a.zip"), some (.str "a.zip"), none, none, none⟩] "out" =
      .ok ([.fetched "http://h/a.zip", .wrote "out/data.txt" "payload"],
           [("out/data.txt", "payload")]) ∧
    Event.isWrite (.wrote "out/data.txt" "payload") = true :=
  ⟨rfl, rfl⟩

/-- Witness for C2's amended statement: three entries, one size-skipped, one
filter-skipped, one completed, with nothing fetched or written. -/
theorem dry_run_no_fetch_no_write_w :
    getRun ⟨some 100, some csvPattern, false, true, true, false, true, none⟩
      ⟨fun _ => none, fun _ => none, fun _ => false, "1",
       ⟨fun _ => "h", fun _ => "h", fun _ => "h", fun _ => "h", fun _ => "h", fun _ => "h"⟩⟩
      []
      [⟨some (.str "u1"), some (.str "a.txt"), some (.num 500), none, none⟩,
       ⟨some (.str "u2"), some (.str "data.csv"), none, none, none⟩,
       ⟨some (.str "u3"), some (.str ".csv"), some (.num 5), none, none⟩] "out" =
      .ok ([.skipped (some (.str "a.txt")), .skipped (some (.str "data.csv")),
            .complete (some (.str ".csv"))], []) := by
  have h := (dry_run_no_fetch_no_write
      ⟨some 100, some csvPattern, false, true, true, false, true, none⟩
      ⟨fun _ => none, fun _ => none, fun _ => false, "1",
       ⟨fun _ => "h", fun _ => "h", fun _ => "h", fun _ => "h", fun _ => "h", fun _ => "h"⟩⟩
      []
      [⟨some (.str "u1"), some (.str "a.txt"), some (.num 500), none, none⟩,
       ⟨some (.str "u2"), some (.str "data.csv"), none, none, none⟩,
       ⟨some (.str "u3"), some (.str ".csv"), some (.num 5), none, none⟩] "out"
      rfl rfl trivial ?_).1
  · rw [h]
    rfl
  · intro f hf
    simp only [List.mem_cons, List.not_mem_nil, or_false] at hf
    rcases hf with rfl | rfl | rfl
    · exact ⟨true, rfl, fun hcon => by cases hcon⟩
    · exact ⟨false, rfl, fun _ => ⟨true, rfl⟩⟩
    · exact ⟨false, rfl, fun _ => ⟨false, rfl⟩⟩

theorem contains_mapRepl (k : String) (v : α) :
    ∀ d : List (String × α), ∀ k2,
      dictContains (d.map (replBind k v)) k2 = dictContains d k2 := by
  intro d
  induction d with
  | nil => intro k2; rfl
  | cons kv rest ih =>
      intro k2
      by_cases hk : (kv.1 == k) = true
      · have hkk : kv.1 = k := by simpa [beq_iff_eq] using hk
        have hhead : replBind k v kv = (k, v) := by simp [replBind, hk]
        simp only [List.map_cons, hhead, dictContains, ih, hkk]
      · have hkf : (kv.1 == k) = false := by simpa using hk
        have hhead : replBind k v kv = kv := by simp [replBind, hkf]
        simp only [List.map_cons, hhead, dictContains, ih]

theorem contains_appendOne (k : String) (v : α) :
    ∀ d : List (String × α), ∀ k2,
      dictContains (d ++ [(k, v)]) k2 = (dictContains d k2 || (k == k2)) := by
  intro d
  induction d with
  | nil => intro k2; simp [dictContains]
  | cons kv rest ih =>
      intro k2
      simp only [List.cons_append, dictContains]
      rw [show rest.append [(k, v)] = rest ++ [(k, v)] from rfl, ih k2, Bool.or_assoc]

theorem dictContains_insert_cases (d : List (String × α)) (k k2 : String) (v : α)
    (h : dictContains (dictInsert d k v) k2 = true) :
    dictContains d k2 = true ∨ k = k2 := by
  unfold dictInsert at h
  by_cases hc : dictContains d k = true
  · simp only [hc, if_true, contains_mapRepl] at h
    exact Or.inl h
  · have hcf : dictContains d k = false := by simpa using hc
    simp only [hcf, Bool.false_eq_true, if_false, contains_appendOne,
      Bool.or_eq_true] at h
    rcases h with h | h
    · exact Or.inl h
    · exact Or.inr (by simpa [beq_iff_eq] using h)

theorem contains_foldl_insert (out : String) :
    ∀ l : List (String × String), ∀ fs : Fs, ∀ p,
      dictContains (l.foldl (fun a m => dictInsert a (pathJoin out m.1) m.2) fs) p = true →
      dictContains fs p = true ∨ ∃ m, m ∈ l ∧ p = pathJoin out m.1 := by
  intro l
  induction l with
  | nil => intro fs p h; exact Or.inl h
  | cons m rest ih =>
      intro fs p h
      have h2 := ih (dictInsert fs (pathJoin out m.1) m.2) p h
      rcases h2 with h2 | ⟨m2, hm2, hp⟩
      · rcases dictContains_insert_cases fs (pathJoin out m.1) p m.2 h2 with h3 | h3
        · exact Or.inl h3
        · exact Or.inr ⟨m, by simp, h3.symm⟩
      · exact Or.inr ⟨m2, by simp [hm2], hp⟩

theorem extractMembers_spec (out : String) :
    ∀ members : List (String × String), ∀ evs fs,
      (∀ m ∈ members, ¬(m.1 = "")) →
      extractMembers out members evs fs =
        .ok (evs ++ memberWriteEvents out members, extractedFs out members fs) := by
  intro members
  induction members with
  | nil =>
      intro evs fs _
      simp [extractMembers, memberWriteEvents, flatMembers, extractedFs]
  | cons m rest ih =>
      intro evs fs hne
      obtain ⟨fn, data⟩ := m
      have hm : ¬(fn = "") := hne (fn, data) (by simp)
      have hbeq : (fn == "") = false := by simpa using hm
      have hrest : ∀ x ∈ rest, ¬(x.1 = "") := fun x hx => hne x (by simp [hx])
      by_cases hd : strEnds fn "/" = true
      · simp only [extractMembers, hbeq, Bool.false_eq_true, if_false, hd, if_true,
          ih evs fs hrest]
        simp [memberWriteEvents, flatMembers, extractedFs, List.filter_cons, hd]
      · have hdf : strEnds fn "/" = false := by simpa using hd
        simp only [extractMembers, hbeq, Bool.false_eq_true, if_false, hdf,
          ih (evs ++ [.wrote (pathJoin out (basename fn)) data])
            (dictInsert fs (pathJoin out (basename fn)) data) hrest]
        simp [memberWriteEvents, flatMembers, extractedFs, List.filter_cons, hdf]

/-- C6: a singleton listing whose entry tests as a zip, with auto-expansion
on, is delegated entirely to the unpacker: no per-entry policy events and no
checksum pass occur, each non-directory member lands under its base name
only, and every path the run adds to the destination is such a flattened
member path (in particular the zip file itself is not written). -/
theorem singleton_zip_delegates (cfg : Config) (w : World) (fs : Fs) (f : FileEntry)
    (u : String) (resp : HttpResp) (members : List (String × String)) (out : String)
    (hunzip : cfg.unzip = true)
    (hflag : zipFlagCheck f = .ok true)
    (hlink : f.link = some (.str u))
    (hnet : w.net u = some resp)
    (hst : resp.status < 400)
    (hzip : w.zipEntries resp.content = some members)
    (hne : ∀ m ∈ members, ¬(m.1 = "")) :
    getRun cfg w fs [f] out = unpackSingleFolder w f.link out fs ∧
    unpackSingleFolder w f.link out fs =
      .ok (.fetched u :: memberWriteEvents out members, extractedFs out members fs) ∧
    (∀ p, dictContains (extractedFs out members fs) p = true →
      dictContains fs p = true ∨ ∃ m, m ∈ flatMembers members ∧ p = pathJoin out m.1) := by
  refine ⟨?_, ?_, ?_⟩
  · unfold getRun
    simp [hflag, hunzip]
  · have hst2 : ¬(400 ≤ resp.status) := not_le.mpr hst
    unfold unpackSingleFolder
    rw [hlink]
    simp only [hnet, hst2, if_false, hzip]
    rw [extractMembers_spec out members [.fetched u] fs hne]
    simp
  · intro p hp
    exact contains_foldl_insert out (flatMembers members) fs p hp

/-- Witness for C6: a two-member archive named `data.zip`; the destination
gains the members by base name and does not contain `data.zip`. -/
theorem singleton_zip_delegates_w :
    getRun ⟨none, none, false, true, true, false, false, none⟩
      ⟨(fun v => if v == "http://h/data.zip" then some ⟨200, none, "Z"⟩ else none),
       (fun c => if c == "Z" then some [("docs/readme.md", "r1"), ("data/d.csv", "c1")] else none),
       (fun _ => false), "1",
       ⟨fun _ => "h", fun _ => "h", fun _ => "h", fun _ => "h", fun _ => "h", fun _ => "h"⟩⟩
      [] [⟨some (.str "http://h/data.zip"), some (.str "data.zip"), none, none, none⟩] "out" =
      .ok ([.fetched "http://h/data.zip", .wrote "out/readme.md" "r1", .wrote "out/d.csv" "c1"],
           [("out/readme.md", "r1"), ("out/d.csv", "c1")]) ∧
    dictContains ([("out/readme.md", "r1"), ("out/d.csv", "c1")] : Fs) "out/data.zip" = false := by
  constructor
  · have h := singleton_zip_delegates ⟨none, none, false, true, true, false, false, none⟩
      ⟨(fun v => if v == "http://h/data.zip" then some ⟨200, none, "Z"⟩ else none),
       (fun c => if c == "Z" then some [("docs/readme.md", "r1"), ("data/d.csv", "c1")] else none),
       (fun _ => false), "1",
       ⟨fun _ => "h", fun _ => "h", fun _ => "h", fun _ => "h", fun _ => "h", fun _ => "h"⟩⟩
      [] ⟨some (.str "http://h/data.zip"), some (.str "data.zip"), none, none, none⟩
      "http://h/data.zip" ⟨200, none, "Z"⟩ [("docs/readme.md", "r1"), ("data/d.csv", "c1")] "out"
      rfl rfl rfl rfl (by decide) rfl
      (by intro m hm; simp only [List.mem_cons, List.not_mem_nil, or_false] at hm;
          rcases hm with rfl | rfl <;> simp)
    rw [h.1, h.2.1]
    rfl
  · rfl

theorem find?_eq_filter_head (p : α → Bool) :
    ∀ l : List α, l.find? p = (l.filter p).head? := by
  intro l
  induction l with
  | nil => rfl
  | cons a rest ih =>
      by_cases h : p a = true
      · rw [List.find?_cons_of_pos _ h, List.filter_cons_of_pos h]
        rfl
      · have hf : p a = false := by simpa using h
        rw [List.find?_cons_of_neg _ (by simp [hf]), List.filter_cons_of_neg (by simp [hf]), ih]

theorem checksumLoop_spec (w : World) (fs : Fs) (info : List FileEntry)
    (hio : ∀ p, w.ioFail p = false) :
    ∀ walk acc, checksumLoop w fs info walk acc =
      .ok (walk.foldl (checksumStep w fs info) acc) := by
  intro walk
  induction walk with
  | nil => intro acc; rfl
  | cons sf rest ih =>
      intro acc
      obtain ⟨subdir, file⟩ := sf
      simp only [checksumLoop, hio, Bool.false_eq_true, if_false]
      rw [ih]
      simp only [List.foldl_cons]
      cases hfil : info.filter (fun e => entryNameEq e file) with
      | nil =>
          have hfind : info.find? (fun e => entryNameEq e file) = none := by
            rw [find?_eq_filter_head, hfil]
            rfl
          simp [checksumStep, hfind]
      | cons e tail =>
          have hfind : info.find? (fun e => entryNameEq e file) = some e := by
            rw [find?_eq_filter_head, hfil]
            rfl
          simp [checksumStep, hfind]

/-- C4 amended: the checksum pass matches each file physically present under
the output root to the first entry whose whole stored name equals the file's
base name (so a folder-prefixed entry name never matches its downloaded
file), records the comparison exactly for matched entries declaring both a
hash and an algorithm, and persists the resulting report. -/
theorem checksum_match_by_whole_name (w : World) (out : String) (fs : Fs)
    (info : List FileEntry)
    (hio : ∀ p, w.ioFail p = false) :
    checkChecksums w out fs info =
      ([.mkdirp (out ++ "/generated"),
        .checksumReport (out ++ "/generated" ++ "/checksums" ++ w.timeNow ++ ".json")
          (checksumReportSpec w fs info (walkFiles fs out))],
       dictInsert fs (out ++ "/generated" ++ "/checksums" ++ w.timeNow ++ ".json")
         (renderReport (checksumReportSpec w fs info (walkFiles fs out)))) := by
  unfold checkChecksums checkChecksumsTry
  rw [checksumLoop_spec w fs info hio (walkFiles fs out) []]
  simp [hio, checksumReportSpec]

/-- C4 counterexample: the only present file sits under a folder, its entry's
name carries the folder prefix and declares an md5 hash, yet the pass records
nothing, because the code compares the whole entry name with the file's base
name; the claim predicts a record keyed by the base name. -/
theorem checksum_folder_name_counterexample :
    checkChecksums
      ⟨fun _ => none, fun _ => none, fun _ => false, "111",
       ⟨fun _ => "h", fun _ => "h", fun _ => "h", fun _ => "h", fun _ => "h", fun _ => "h"⟩⟩
      "out" [("out/folder/data.csv", "xyz")]
      [⟨none, some (.str "folder/data.csv"), none, some (.str "deadbeef"), some (.str "md5")⟩] =
      ([.mkdirp "out/generated", .checksumReport "out/generated/checksums111.json" []],
       [("out/folder/data.csv", "xyz"), ("out/generated/checksums111.json", "")]) ∧
    entryNameEq
      ⟨none, some (.str "folder/data.csv"), none, some (.str "deadbeef"), some (.str "md5")⟩
      (basename "out/folder/data.csv") = false :=
  ⟨rfl, rfl⟩

/-- Witness for C4's amended statement: a flat-named entry with a declared
md5 hash is matched by whole-name equality and recorded as matching. -/
theorem checksum_match_by_whole_name_w :
    checkChecksums
      ⟨fun _ => none, fun _ => none, fun _ => false, "111",
       ⟨fun _ => "h", fun _ => "h", fun _ => "h", fun _ => "h", fun _ => "h", fun _ => "h"⟩⟩
      "out" [("out/data.csv", "xyz")]
      [⟨none, some (.str "data.csv"), none, some (.str "h"), some (.str "md5")⟩] =
      ([.mkdirp "out/generated", .checksumReport "out/generated/checksums111.json"
          [("data.csv", true)]],
       [("out/data.csv", "xyz"), ("out/generated/checksums111.json", "data.csv:true;")]) := by
  have h := checksum_match_by_whole_name
      ⟨fun _ => none, fun _ => none, fun _ => false, "111",
       ⟨fun _ => "h", fun _ => "h", fun _ => "h", fun _ => "h", fun _ => "h", fun _ => "h"⟩⟩
      "out" [("out/data.csv", "xyz")]
      [⟨none, some (.str "data.csv"), none, some (.str "h"), some (.str "md5")⟩]
      (fun _ => rfl)
  rw [h]
  rfl

theorem recLoop_eq (net : Net) (d : Descriptor) (gas : Nat) (folder : Option JValue) :
    ∀ records acc, recLoop net d gas folder records acc =
      emap (fun l => acc ++ l) (processRecords net d gas folder records) := by
  intro records
  induction records with
  | nil => intro acc; simp [recLoop, processRecords, emap]
  | cons f fs ih =>
      intro acc
      simp only [recLoop, processRecords, processOne]
      cases hp : computePath folder (getAttrName d f) with
      | error e => simp [emap]
      | ok fPath =>
          dsimp only
          by_cases hk : isStrVal (getAttrKind d f) "folder" = true
          · simp only [hk, if_true]
            cases hg : getFilesRecursive net d gas (getAttrLink d f) fPath with
            | error e => simp [emap]
            | ok sub =>
                dsimp only
                rw [ih (acc ++ sub)]
                cases hrec : processRecords net d gas folder fs with
                | error e => simp [emap]
                | ok ys => simp [emap, List.append_assoc]
          · have hkf : isStrVal (getAttrKind d f) "folder" = false := by simpa using hk
            simp only [hkf, Bool.false_eq_true, if_false]
            rw [ih (acc ++ [mkEntry d f fPath])]
            cases hrec : processRecords net d gas folder fs with
            | error e => simp [emap]
            | ok ys => simp [emap, List.append_assoc]

/-- C1: one page of `_get_files_recursive` decomposes exactly as the
specification reads it: the page is fetched, the record array extracted, each
record contributes in array order (a folder record contributes the recursive
traversal of its link under the joined prefix, in place; any other record,
kind absent included, contributes exactly one entry with possibly absent
link, size, hash and algorithm), and the declared pagination's results for a
truthy next link are appended after the page's results under the same folder
prefix. -/
theorem traversal_page_decomposition (net : Net) (d : Descriptor) (gas : Nat)
    (url folder : Option JValue) :
    getFilesRecursive net d (gas + 1) url folder =
      (match httpGet net url with
       | .error e => .error e
       | .ok resp =>
           match raiseForStatus resp with
           | .error e => .error e
           | .ok _ =>
               match respJson resp with
               | .error e => .error e
               | .ok response =>
                   match extractRecords d response with
                   | .error e => .error e
                   | .ok records =>
                       match processRecords net d gas folder records with
                       | .error e => .error e
                       | .ok page =>
                           match paginationResults net d gas folder response with
                           | .error e => .error e
                           | .ok nxt => .ok (page ++ nxt)) := by
  simp only [getFilesRecursive]
  cases hresp : httpGet net url with
  | error e => rfl
  | ok resp =>
      dsimp only
      cases hst : raiseForStatus resp with
      | error e => rfl
      | ok u2 =>
          dsimp only
          cases hj : respJson resp with
          | error e => rfl
          | ok response =>
              dsimp only
              cases hrecs : extractRecords d response with
              | error e => rfl
              | ok records =>
                  dsimp only
                  rw [recLoop_eq net d gas folder records []]
                  cases hrec : processRecords net d gas folder records with
                  | error e => simp [emap]
                  | ok page =>
                      simp only [emap, List.nil_append, paginationResults]
                      cases hpp : d.paginationPath with
                      | none => simp
                      | some jp =>
                          dsimp only
                          cases hpe : parseJsonPath jp with
                          | error e => rfl
                          | ok e =>
                              dsimp only
                              cases hfp : findPath e response with
                              | nil => rfl
                              | cons v vs =>
                                  dsimp only
                                  by_cases htr : truthy v = true
                                  · simp only [htr, if_true]
                                  · have htf : truthy v = false := by simpa using htr
                                    simp [htf]

end Datahugger
